import Mathlib

/-!
# Verification of the go-snowflake identifier generator

A shallow embedding of the `snowflake` Go package: the bit-layout constants,
the identifier codec (`ParseID` and the assembly expression of `NextID`),
the configuration setters (`SetStartTime`, `SetMachineID`), the default
sequence resolver, and the generator loop (`NextID`, `ID`,
`waitForNextMillis`).

Modelling conventions:
* Go `uint64` values are `Nat`; where the source converts an `int` to
  `uint64` we reduce modulo `2^64`.
* Go `int64` clock readings may be negative, so they are `Int`; Go's `/`
  on integers truncates toward zero, which is `Int.tdiv`.
* The process clock is a function `clock : Nat → Int` giving the value of
  the i-th call of `currentMillis`, and a (possibly stateful) sequence
  resolver is a function `res : Nat → Int → Except String Nat` giving the
  outcome of the j-th resolver call on a millisecond value.  Both loops of
  the source (`waitForNextMillis` and the exhaustion loop of `NextID`) are
  given fuel; running out of fuel yields `none` and models divergence.
-/

namespace Snowflake

/-! ## Bit-layout constants (source lines 16–26) -/

def TimestampLength : Nat := 41
def MachineIDLength : Nat := 6
def SequenceLength : Nat := 6
def MaxTimestamp : Nat := (1 <<< TimestampLength) - 1
def MaxMachineID : Nat := (1 <<< MachineIDLength) - 1
def MaxSequence : Nat := (1 <<< SequenceLength) - 1

def machineIDMoveLength : Nat := SequenceLength
def timestampMoveLength : Nat := MachineIDLength + SequenceLength

theorem MaxTimestamp_val : MaxTimestamp = 2199023255551 := by decide
theorem MaxMachineID_val : MaxMachineID = 63 := by decide
theorem MaxSequence_val : MaxSequence = 63 := by decide

/-! ## Identifier codec -/

/-- `SID` record produced by `ParseID` (source lines 127–132). -/
structure SID where
  Sequence : Nat
  MachineID : Nat
  Timestamp : Nat
  ID : Nat
deriving Repr, DecidableEq

/-- `ParseID` (source lines 142–153): pure field extraction by masking and
shifting; total on the whole input domain. -/
def ParseID (id : Nat) : SID :=
  let time := id >>> (SequenceLength + MachineIDLength)
  let sequence := id &&& MaxSequence
  let machineID := (id &&& (MaxMachineID <<< SequenceLength)) >>> SequenceLength
  { ID := id
    Sequence := sequence
    MachineID := machineID
    Timestamp := time }

/-- The assembly expression of `NextID` (source line 76):
`uint64((df << timestampMoveLength) | (machineID << machineIDMoveLength) | int(seq))`.
The final `% 2^64` is the Go conversion from `int` to `uint64`; on the
reachable ranges (`df ≤ MaxTimestamp`, `machineID ≤ MaxMachineID`,
`seq < MaxSequence`) the intermediate `int` arithmetic cannot overflow. -/
def encodeID (df mid seq : Nat) : Nat :=
  ((df <<< timestampMoveLength) ||| (mid <<< machineIDMoveLength) ||| seq) % 2 ^ 64

/-! ## Arithmetic form of the bit operations -/

theorem shiftRight_and_shiftLeft (x m k : Nat) :
    (x &&& (m <<< k)) >>> k = (x >>> k) &&& m := by
  apply Nat.eq_of_testBit_eq
  intro i
  simp only [Nat.testBit_shiftRight, Nat.testBit_and, Nat.testBit_shiftLeft]
  have h1 : k ≤ k + i := Nat.le_add_right _ _
  have h2 : k + i - k = i := by omega
  simp [h1, h2]

theorem or3_eq_add (t m s : Nat) (hm : m < 64) (hs : s < 64) :
    (t <<< 12) ||| (m <<< 6) ||| s = t * 4096 + m * 64 + s := by
  have e1 : t <<< 12 = t * 4096 := by rw [Nat.shiftLeft_eq]
  have e2 : m <<< 6 = m * 64 := by rw [Nat.shiftLeft_eq]
  rw [e1, e2]
  have h1 : (t * 4096) ||| (m * 64) = t * 4096 + m * 64 := by
    have hb : m * 64 < 2 ^ 12 := by omega
    have h := (Nat.mul_add_lt_is_or hb t).symm
    have e : (2 : Nat) ^ 12 * t = t * 4096 := by ring
    rw [e] at h
    exact h
  rw [h1]
  have hb : s < 2 ^ 6 := by omega
  have h := (Nat.mul_add_lt_is_or hb (t * 64 + m)).symm
  have e : (2 : Nat) ^ 6 * (t * 64 + m) = t * 4096 + m * 64 := by ring
  rw [e] at h
  exact h

theorem parse_sequence_eq (id : Nat) : (ParseID id).Sequence = id % 64 := by
  show id &&& MaxSequence = id % 64
  have h : MaxSequence = 2 ^ 6 - 1 := by decide
  rw [h, Nat.and_pow_two_sub_one_eq_mod]

theorem parse_timestamp_eq (id : Nat) : (ParseID id).Timestamp = id / 4096 := by
  show id >>> (SequenceLength + MachineIDLength) = id / 4096
  rw [Nat.shiftRight_eq_div_pow]
  norm_num [SequenceLength, MachineIDLength]

theorem parse_machineID_eq (id : Nat) :
    (ParseID id).MachineID = id / 64 % 64 := by
  show (id &&& (MaxMachineID <<< SequenceLength)) >>> SequenceLength = id / 64 % 64
  rw [shiftRight_and_shiftLeft]
  have h : MaxMachineID = 2 ^ 6 - 1 := by decide
  rw [h, Nat.and_pow_two_sub_one_eq_mod, Nat.shiftRight_eq_div_pow]
  norm_num [SequenceLength]

theorem parse_id_eq (id : Nat) : (ParseID id).ID = id := rfl

/-- On the bounded field ranges the assembly is plain positional arithmetic. -/
theorem encodeID_eq_add (df mid seq : Nat) (hd : df ≤ MaxTimestamp)
    (hm : mid ≤ MaxMachineID) (hs : seq ≤ MaxSequence) :
    encodeID df mid seq = df * 4096 + mid * 64 + seq := by
  rw [MaxTimestamp_val] at hd
  rw [MaxMachineID_val] at hm
  rw [MaxSequence_val] at hs
  show ((df <<< 12) ||| (mid <<< 6) ||| seq) % 2 ^ 64 = _
  rw [or3_eq_add df mid seq (by omega) (by omega)]
  apply Nat.mod_eq_of_lt
  have h64 : (2 : Nat) ^ 64 = 18446744073709551616 := by norm_num
  rw [h64]
  omega

/-- Decoding the assembled identifier recovers the three fields, provided each
field is within its bit width. -/
theorem parse_encodeID (df mid seq : Nat) (hd : df ≤ MaxTimestamp)
    (hm : mid ≤ MaxMachineID) (hs : seq ≤ MaxSequence) :
    (ParseID (encodeID df mid seq)).Sequence = seq ∧
    (ParseID (encodeID df mid seq)).MachineID = mid ∧
    (ParseID (encodeID df mid seq)).Timestamp = df := by
  have henc := encodeID_eq_add df mid seq hd hm hs
  rw [MaxTimestamp_val] at hd
  rw [MaxMachineID_val] at hm
  rw [MaxSequence_val] at hs
  refine ⟨?_, ?_, ?_⟩
  · rw [parse_sequence_eq, henc]; omega
  · rw [parse_machineID_eq, henc]; omega
  · rw [parse_timestamp_eq, henc]; omega

/-! ## Configuration setters -/

def machineIDPanicMsg : String := "The machineid cannot be greater than 63"

/-- `SetMachineID` (source lines 111–116): panics when `m > MaxMachineID`,
otherwise stores `m` as the process machine ID.  The Go panic is modelled as
`Except.error`; the value stored into the package variable is returned on
success. -/
def SetMachineID (m : Nat) : Except String Nat :=
  if m > MaxMachineID then Except.error machineIDPanicMsg
  else Except.ok m

/-- Nanoseconds of Go's zero `time.Time` (January 1, year 1, 00:00:00 UTC)
relative to the Unix epoch: −62135596800 seconds. -/
def zeroTimeNanos : Int := -62135596800000000000

/-- A `time.Time` instant, reduced to its nanosecond offset from the Unix
epoch (all times in the package are converted to UTC, which does not change
the instant). -/
structure Time where
  nanos : Int
deriving Repr, DecidableEq

/-- Go `Time.IsZero`: holds exactly for the zero time value. -/
def Time.IsZero (t : Time) : Prop := t.nanos = zeroTimeNanos

instance (t : Time) : Decidable t.IsZero :=
  inferInstanceAs (Decidable (t.nanos = zeroTimeNanos))

/-- Two's-complement wrap into the `int64` range `[−2^63, 2^63)`. -/
def wrapInt64 (n : Int) : Int := (n + 2 ^ 63) % 2 ^ 64 - 2 ^ 63

/-- Go `time.Time.UnixNano()`: the instant's nanosecond offset from the Unix
epoch as an `int64`.  A `time.Time` itself represents instants far outside
the `int64`-nanosecond range (roughly the years 1678–2262), and for those
`UnixNano` overflows by two's-complement wrapping. -/
def unixNano (t : Time) : Int := wrapInt64 t.nanos

/-- `UnixNano()/1e6` as in `currentMillis` and `elapsedTime` (source lines
175–182): Go's `/` on `int64` truncates toward zero. -/
def toMillis (t : Time) : Int := Int.tdiv (unixNano t) 1000000

def startTimePanicZero : String := "The start time cannot be a zero value"
def startTimePanicFuture : String := "The s cannot be greater than the current millisecond"
def startTimePanicLifecycle : String := "The maximum life cycle of the snowflake algorithm is 69 years"

/-- `SetStartTime` (source lines 89–107).  `now` is the process clock reading
(the source samples `time.Now()` for the future-check and `currentMillis()`
for the span check; both are readings of the same clock and are modelled as
one instant).  The three Go panics are modelled as `Except.error`; on
success the stored start time is returned. -/
def SetStartTime (now s : Time) : Except String Time :=
  if s.IsZero then Except.error startTimePanicZero
  else if s.nanos > now.nanos then Except.error startTimePanicFuture
  else if toMillis now - toMillis s > (MaxTimestamp : Int) then
    Except.error startTimePanicLifecycle
  else Except.ok s

/-! ## The default sequence resolver -/

/-- Internal state of the default resolver: the last observed time unit and
the per-unit counter. -/
structure ResolverState where
  lastTimeUnit : Int
  counter : Nat
deriving Repr, DecidableEq

/-- Modelled from the spec: the body of the default resolver `AtomicResolver`
is not among these sources (only its declaration comment, its test and its
call site in `callSequenceResolver` are).  Following §4.3 of the design
description: the resolver owns a `(lastTimeUnit, counter)` pair; a call with
the same time unit atomically increments the counter and returns the new
value; a call with a different time unit stores the new time unit, resets
the counter to 0 and returns 0; the default strategy never returns an
error.  The atomic read-compare-update is serialized, so one call is a pure
state transition. -/
def AtomicResolver (st : ResolverState) (ms : Int) : ResolverState × Except String Nat :=
  if ms = st.lastTimeUnit then
    let next := st.counter + 1
    ({ st with counter := next }, Except.ok next)
  else
    ({ lastTimeUnit := ms, counter := 0 }, Except.ok 0)

/-! ## The generator -/

def lifecycleErrMsg : String :=
  "The maximum life cycle of the snowflake algorithm is 2^41(millis), please check starttime"

/-- `waitForNextMillis` (source lines 159–165): repeatedly samples the clock,
starting at call index `i`, until the reading differs from `last`; returns
the new reading together with the next unused clock index.  `none` models
the busy wait not finishing within `wfuel` samples. -/
def waitForNextMillis (clock : Nat → Int) (last : Int) :
    Nat → Nat → Option (Int × Nat)
  | 0, _ => none
  | wfuel + 1, i =>
    if clock i = last then waitForNextMillis clock last wfuel (i + 1)
    else some (clock i, i + 1)

/-- The exhaustion loop of `NextID` (source lines 63–69), over the current
clock index `i`, resolver call index `j`, current reading `c` and current
sequence `seq`.  While `seq ≥ MaxSequence` it waits for the next
millisecond and re-resolves, returning a resolver error as is; on exit it
yields the finally used `(c, seq)` pair.  `fuel` bounds the number of
iterations and `wfuel` the number of clock samples per wait; `none` models
non-termination. -/
def nextIDLoop (clock : Nat → Int) (res : Nat → Int → Except String Nat)
    (wfuel : Nat) :
    Nat → Nat → Nat → Int → Nat → Option (Except String (Int × Nat))
  | 0, _, _, _, _ => none
  | fuel + 1, i, j, c, seq =>
    if seq ≥ MaxSequence then
      match waitForNextMillis clock c wfuel i with
      | none => none
      | some (c2, i2) =>
        match res j c2 with
        | Except.error e => some (Except.error e)
        | Except.ok seq2 => nextIDLoop clock res wfuel fuel i2 (j + 1) c2 seq2
    else some (Except.ok (c, seq))

/-- The tail of `NextID` (source lines 71–77): the epoch-bound check on
`df = c − startMillis` and the bit assembly, for the finally used reading
`c` and sequence `seq`.  `startMillis` is `startTime.UnixNano()/1e6`. -/
def nextIDFinish (startMillis : Int) (mid : Nat) (c : Int) (seq : Nat) :
    Except String Nat :=
  let df := c - startMillis
  if df < 0 ∨ df > (MaxTimestamp : Int) then Except.error lifecycleErrMsg
  else Except.ok (encodeID df.toNat mid seq)

/-- `NextID` (source lines 54–78): sample the clock, resolve the sequence
(returning a resolver error as is), run the exhaustion loop, then check the
epoch bound and assemble the identifier. -/
def NextID (clock : Nat → Int) (res : Nat → Int → Except String Nat)
    (startMillis : Int) (mid : Nat) (fuel wfuel : Nat) :
    Option (Except String Nat) :=
  match res 0 (clock 0) with
  | Except.error e => some (Except.error e)
  | Except.ok seq =>
    match nextIDLoop clock res wfuel fuel 1 1 (clock 0) seq with
    | none => none
    | some (Except.error e) => some (Except.error e)
    | some (Except.ok (c, seq2)) => some (nextIDFinish startMillis mid c seq2)

/-- `ID` (source lines 47–50): call `NextID` and discard the error.  In the
source every error path of `NextID` returns the id `0`, so discarding the
error leaves the Go zero value 0. -/
def ID (clock : Nat → Int) (res : Nat → Int → Except String Nat)
    (startMillis : Int) (mid : Nat) (fuel wfuel : Nat) : Option Nat :=
  (NextID clock res startMillis mid fuel wfuel).map fun r =>
    match r with
    | Except.ok id => id
    | Except.error _ => 0

/-! ## Lemmas on the generator -/

theorem waitForNextMillis_spec (clock : Nat → Int) (last : Int) :
    ∀ wfuel i c2 i2, waitForNextMillis clock last wfuel i = some (c2, i2) →
      c2 ≠ last ∧ i < i2 ∧ clock (i2 - 1) = c2 := by
  intro wfuel
  induction wfuel with
  | zero =>
    intro i c2 i2 h
    exact absurd h (by simp [waitForNextMillis])
  | succ n ih =>
    intro i c2 i2 h
    rw [waitForNextMillis] at h
    by_cases hc : clock i = last
    · rw [if_pos hc] at h
      obtain ⟨h1, h2, h3⟩ := ih (i + 1) c2 i2 h
      exact ⟨h1, by omega, h3⟩
    · rw [if_neg hc] at h
      obtain ⟨rfl, rfl⟩ := Prod.mk.injEq .. ▸ Option.some.inj h
      exact ⟨hc, by omega, by simp⟩

/-- Every outcome of the exhaustion loop is either a resolver error, returned
as is, or a pair `(c, seq)` with `seq < MaxSequence` that is either the input
pair or was produced by a resolver call. -/
theorem nextIDLoop_cases (clock : Nat → Int) (res : Nat → Int → Except String Nat)
    (wfuel : Nat) :
    ∀ fuel i j c seq r, nextIDLoop clock res wfuel fuel i j c seq = some r →
      (∃ e, r = Except.error e ∧ ∃ j2 c2, res j2 c2 = Except.error e) ∨
      (∃ c2 seq2, r = Except.ok (c2, seq2) ∧ seq2 < MaxSequence ∧
        ((c2 = c ∧ seq2 = seq) ∨ ∃ j2, res j2 c2 = Except.ok seq2)) := by
  intro fuel
  induction fuel with
  | zero =>
    intro i j c seq r h
    exact absurd h (by simp [nextIDLoop])
  | succ n ih =>
    intro i j c seq r h
    rw [nextIDLoop] at h
    by_cases hseq : seq ≥ MaxSequence
    · rw [if_pos hseq] at h
      cases hw : waitForNextMillis clock c wfuel i with
      | none => rw [hw] at h; exact absurd h (by simp)
      | some p =>
        obtain ⟨c2, i2⟩ := p
        rw [hw] at h
        dsimp only at h
        cases hres : res j c2 with
        | error e =>
          rw [hres] at h
          obtain rfl := Option.some.inj h
          exact Or.inl ⟨e, rfl, j, c2, hres⟩
        | ok seq2 =>
          rw [hres] at h
          rcases ih i2 (j + 1) c2 seq2 r h with he | ⟨c3, seq3, hr, hlt, hor⟩
          · exact Or.inl he
          · refine Or.inr ⟨c3, seq3, hr, hlt, Or.inr ?_⟩
            rcases hor with ⟨rfl, rfl⟩ | ⟨j2, hj2⟩
            · exact ⟨j, hres⟩
            · exact ⟨j2, hj2⟩
    · rw [if_neg hseq] at h
      obtain rfl := Option.some.inj h
      exact Or.inr ⟨c, seq, rfl, by omega, Or.inl ⟨rfl, rfl⟩⟩

/-- Under a non-decreasing clock, the reading the loop finally uses never goes
below the reading it started from, and is strictly above it when the loop
entered exhausted. -/
theorem nextIDLoop_mono (clock : Nat → Int) (res : Nat → Int → Except String Nat)
    (wfuel : Nat) (hmono : ∀ a b : Nat, a ≤ b → clock a ≤ clock b) :
    ∀ fuel i j c seq c2 seq2,
      (∃ i0, i0 < i ∧ clock i0 = c) →
      nextIDLoop clock res wfuel fuel i j c seq = some (Except.ok (c2, seq2)) →
      c ≤ c2 ∧ (MaxSequence ≤ seq → c < c2) := by
  intro fuel
  induction fuel with
  | zero =>
    intro i j c seq c2 seq2 _ h
    exact absurd h (by simp [nextIDLoop])
  | succ n ih =>
    intro i j c seq c2 seq2 hinv h
    rw [nextIDLoop] at h
    by_cases hseq : seq ≥ MaxSequence
    · rw [if_pos hseq] at h
      cases hw : waitForNextMillis clock c wfuel i with
      | none => rw [hw] at h; exact absurd h (by simp)
      | some p =>
        obtain ⟨c3, i3⟩ := p
        rw [hw] at h
        dsimp only at h
        obtain ⟨hne, hlt, hclock⟩ := waitForNextMillis_spec clock c wfuel i c3 i3 hw
        obtain ⟨i0, hi0, hc0⟩ := hinv
        have hcc3 : c < c3 := by
          have : clock i0 ≤ clock (i3 - 1) := hmono i0 (i3 - 1) (by omega)
          rw [hc0, hclock] at this
          omega
        cases hres : res j c3 with
        | error e => rw [hres] at h; exact absurd h (by simp)
        | ok seq3 =>
          rw [hres] at h
          have := ih i3 (j + 1) c3 seq3 c2 seq2 ⟨i3 - 1, by omega, hclock⟩ h
          exact ⟨by omega, fun _ => by omega⟩
    · rw [if_neg hseq] at h
      obtain ⟨h1, h2⟩ := Prod.mk.injEq .. ▸ Except.ok.inj (Option.some.inj h)
      subst h1
      exact ⟨le_refl c, fun hc => absurd hc hseq⟩

theorem nextIDFinish_ok (startMillis : Int) (mid : Nat) (c : Int) (seq : Nat)
    (id : Nat) :
    nextIDFinish startMillis mid c seq = Except.ok id ↔
      (0 ≤ c - startMillis ∧ c - startMillis ≤ (MaxTimestamp : Int) ∧
        id = encodeID (c - startMillis).toNat mid seq) := by
  unfold nextIDFinish
  dsimp only
  split_ifs with hguard
  · constructor
    · intro h
      exact absurd h (by simp)
    · intro ⟨h1, h2, _⟩
      omega
  · constructor
    · intro h
      obtain rfl := Except.ok.inj h
      exact ⟨by omega, by omega, rfl⟩
    · intro ⟨_, _, rfl⟩
      rfl

theorem nextIDFinish_error (startMillis : Int) (mid : Nat) (c : Int) (seq : Nat)
    (e : String) :
    nextIDFinish startMillis mid c seq = Except.error e ↔
      ((c - startMillis < 0 ∨ c - startMillis > (MaxTimestamp : Int)) ∧
        e = lifecycleErrMsg) := by
  unfold nextIDFinish
  dsimp only
  split_ifs with hguard
  · constructor
    · intro h
      exact ⟨hguard, (Except.error.inj h).symm⟩
    · intro ⟨_, rfl⟩
      rfl
  · constructor
    · intro h
      exact absurd h (by simp)
    · intro ⟨h, _⟩
      exact absurd h hguard

/-- Every outcome of `NextID` is either a resolver error, returned as is, or
the epoch check and assembly applied to a finally used pair `(c, seq)` that
some resolver call produced with `seq < MaxSequence`. -/
theorem NextID_cases (clock : Nat → Int) (res : Nat → Int → Except String Nat)
    (startMillis : Int) (mid : Nat) (fuel wfuel : Nat) (r : Except String Nat) :
    NextID clock res startMillis mid fuel wfuel = some r →
      (∃ e, r = Except.error e ∧ ∃ j c, res j c = Except.error e) ∨
      (∃ j c seq, res j c = Except.ok seq ∧ seq < MaxSequence ∧
        r = nextIDFinish startMillis mid c seq) := by
  intro h
  unfold NextID at h
  cases hres : res 0 (clock 0) with
  | error e =>
    rw [hres] at h
    obtain rfl := Option.some.inj h
    exact Or.inl ⟨e, rfl, 0, clock 0, hres⟩
  | ok seq0 =>
    rw [hres] at h
    dsimp only at h
    cases hloop : nextIDLoop clock res wfuel fuel 1 1 (clock 0) seq0 with
    | none => rw [hloop] at h; exact absurd h (by simp)
    | some r2 =>
      rw [hloop] at h
      rcases nextIDLoop_cases clock res wfuel fuel 1 1 (clock 0) seq0 r2 hloop with
        ⟨e, rfl, j2, c2, hj2⟩ | ⟨c2, seq2, rfl, hlt, hor⟩
      · obtain rfl := Option.some.inj h
        exact Or.inl ⟨e, rfl, j2, c2, hj2⟩
      · obtain rfl := Option.some.inj h
        rcases hor with ⟨rfl, rfl⟩ | ⟨j2, hj2⟩
        · exact Or.inr ⟨0, clock 0, seq2, hres, hlt, rfl⟩
        · exact Or.inr ⟨j2, c2, seq2, hj2, hlt, rfl⟩

/-- A successful `NextID` run decomposes into a resolver-produced pair
`(c, seq)` passing the epoch check, assembled into the identifier. -/
theorem NextID_ok_decomposition (clock : Nat → Int)
    (res : Nat → Int → Except String Nat) (startMillis : Int)
    (mid fuel wfuel id : Nat) :
    NextID clock res startMillis mid fuel wfuel = some (Except.ok id) →
    ∃ j c seq, res j c = Except.ok seq ∧ seq < MaxSequence ∧
      0 ≤ c - startMillis ∧ c - startMillis ≤ (MaxTimestamp : Int) ∧
      id = encodeID (c - startMillis).toNat mid seq := by
  intro h
  rcases NextID_cases clock res startMillis mid fuel wfuel _ h with
    ⟨e, he, _⟩ | ⟨j, c, seq, hres, hlt, hfin⟩
  · exact absurd he (by simp)
  · obtain ⟨h1, h2, h3⟩ := (nextIDFinish_ok startMillis mid c seq id).1 hfin.symm
    exact ⟨j, c, seq, hres, hlt, h1, h2, h3⟩

/-! ## Claims on the codec, the setters and the resolver -/

/-- C1: for every triple `(elapsed, machineID, sequence)` within the bit-width
bounds `elapsed ≤ 2^41−1`, `machineID ≤ 2^6−1`, `sequence ≤ 2^6−1`, decoding
the assembled identifier `(elapsed << 12) | (machineID << 6) | sequence` with
`ParseID` returns exactly the three fields, and `ParseID` extracts
`sequence = id & (2^6−1)`, `machineID = (id >> 6) & (2^6−1)` and
`relativeTimestamp = id >> 12`. -/
theorem c1_parse_roundtrip :
    (∀ elapsed mid seq : Nat,
      elapsed ≤ 2 ^ 41 - 1 → mid ≤ 2 ^ 6 - 1 → seq ≤ 2 ^ 6 - 1 →
      (ParseID (encodeID elapsed mid seq)).Timestamp = elapsed ∧
      (ParseID (encodeID elapsed mid seq)).MachineID = mid ∧
      (ParseID (encodeID elapsed mid seq)).Sequence = seq) ∧
    (∀ id : Nat,
      (ParseID id).Sequence = id &&& (2 ^ 6 - 1) ∧
      (ParseID id).MachineID = (id >>> 6) &&& (2 ^ 6 - 1) ∧
      (ParseID id).Timestamp = id >>> 12) := by
  constructor
  · intro elapsed mid seq hd hm hs
    have h := parse_encodeID elapsed mid seq
      (by rw [MaxTimestamp_val]; omega)
      (by rw [MaxMachineID_val]; omega)
      (by rw [MaxSequence_val]; omega)
    exact ⟨h.2.2, h.2.1, h.1⟩
  · intro id
    refine ⟨rfl, ?_, rfl⟩
    show (id &&& (MaxMachineID <<< SequenceLength)) >>> SequenceLength = _
    rw [shiftRight_and_shiftLeft]
    rfl

/-- Witness for C1 at `(elapsed, machineID, sequence) = (5, 3, 7)`. -/
theorem c1_parse_roundtrip_witness :
    (ParseID (encodeID 5 3 7)).Timestamp = 5 ∧
    (ParseID (encodeID 5 3 7)).MachineID = 3 ∧
    (ParseID (encodeID 5 3 7)).Sequence = 7 :=
  c1_parse_roundtrip.1 5 3 7 (by norm_num) (by norm_num) (by norm_num)

/-- C10: `ParseID` is lossless on the whole 64-bit domain: for every
`id < 2^64` the decoded record keeps `ID = id`, its `Sequence` and
`MachineID` fields are at most 63, re-assembling the decoded fields by
`(Timestamp << 12) | (MachineID << 6) | Sequence` gives back `id` exactly,
and `ParseID` is injective. -/
theorem c10_parse_lossless :
    ∀ id : Nat, id < 2 ^ 64 →
      (ParseID id).ID = id ∧
      (ParseID id).Sequence ≤ 63 ∧
      (ParseID id).MachineID ≤ 63 ∧
      ((ParseID id).Timestamp <<< 12) ||| ((ParseID id).MachineID <<< 6) |||
        (ParseID id).Sequence = id ∧
      (∀ id2 : Nat, id2 < 2 ^ 64 → ParseID id = ParseID id2 → id = id2) := by
  intro id _
  have hs := parse_sequence_eq id
  have hm := parse_machineID_eq id
  have ht := parse_timestamp_eq id
  refine ⟨rfl, by omega, by omega, ?_, ?_⟩
  · rw [hs, hm, ht, or3_eq_add _ _ _ (by omega) (by omega)]
    omega
  · intro id2 _ h
    have := congrArg SID.ID h
    rwa [parse_id_eq, parse_id_eq] at this

/-- Witness for C10 at `id = 81985529216486895` (`0x0123456789abcdef`). -/
theorem c10_parse_lossless_witness :
    (ParseID 81985529216486895).ID = 81985529216486895 ∧
    (ParseID 81985529216486895).Sequence ≤ 63 ∧
    (ParseID 81985529216486895).MachineID ≤ 63 :=
  have h := c10_parse_lossless 81985529216486895 (by norm_num)
  ⟨h.1, h.2.1, h.2.2.1⟩

/-- C7: `SetMachineID m` panics exactly when `m > 63`; in particular
`SetMachineID 64` panics, and for `m ≤ 63` it stores `m`. -/
theorem c7_setMachineID :
    (∀ m : Nat, (∃ e, SetMachineID m = Except.error e) ↔ m > 63) ∧
    (∃ e, SetMachineID 64 = Except.error e) ∧
    (∀ m : Nat, m ≤ 63 → SetMachineID m = Except.ok m) := by
  refine ⟨?_, ⟨machineIDPanicMsg, rfl⟩, ?_⟩
  · intro m
    unfold SetMachineID
    rw [MaxMachineID_val]
    constructor
    · intro ⟨e, he⟩
      by_contra hle
      rw [if_neg (by omega)] at he
      exact Except.noConfusion he
    · intro hgt
      exact ⟨machineIDPanicMsg, by rw [if_pos (by omega)]⟩
  · intro m hle
    unfold SetMachineID
    rw [MaxMachineID_val, if_neg (by omega)]

/-- Witness for C7 at `m = 64` (panic) and `m = 63` (success). -/
theorem c7_setMachineID_witness :
    (∃ e, SetMachineID 64 = Except.error e) ∧ SetMachineID 63 = Except.ok 63 :=
  ⟨c7_setMachineID.2.1, c7_setMachineID.2.2 63 (by norm_num)⟩

/-- What `SetStartTime` actually checks: it errs exactly when the start time
is the zero time value, or is strictly after the current clock reading, or
the difference of the `int64`-wrapped millisecond readings exceeds
`MaxTimestamp`; otherwise it stores the start time.  Because `toMillis`
wraps like `UnixNano`, for far-past start times this checked quantity is
not the real elapsed span. -/
theorem setStartTime_error_iff_checked :
    ∀ now s : Time,
      ((∃ e, SetStartTime now s = Except.error e) ↔
        (s.IsZero ∨ s.nanos > now.nanos ∨
          toMillis now - toMillis s > (MaxTimestamp : Int))) ∧
      (¬ s.IsZero → ¬ s.nanos > now.nanos →
        toMillis now - toMillis s ≤ (MaxTimestamp : Int) →
        SetStartTime now s = Except.ok s) := by
  intro now s
  constructor
  · unfold SetStartTime
    split_ifs with h1 h2 h3
    · exact ⟨fun _ => Or.inl h1, fun _ => ⟨startTimePanicZero, rfl⟩⟩
    · exact ⟨fun _ => Or.inr (Or.inl h2), fun _ => ⟨startTimePanicFuture, rfl⟩⟩
    · exact ⟨fun _ => Or.inr (Or.inr h3), fun _ => ⟨startTimePanicLifecycle, rfl⟩⟩
    · constructor
      · intro h
        obtain ⟨e, he⟩ := h
        exact absurd he (by simp)
      · intro h
        rcases h with h | h | h
        · exact absurd h h1
        · exact absurd h h2
        · exact absurd h h3
  · intro h1 h2 h3
    unfold SetStartTime
    rw [if_neg h1, if_neg h2, if_neg (by omega)]

/-- C6 (code bug, evaluated at the failing input): with the clock at
2023-11-14T22:13:20Z (Unix nanos 1700000000000000000), `SetStartTime`
applied to 1000-01-01T00:00:00Z (Unix nanos −30610224000000000000) stores
the epoch without panicking: the `int64`-wrapped `UnixNano` of the start
time is +6283264147419103232, so `df` at source lines 101–102 is negative
and the `df > MaxTimestamp` check never fires — although the real span
`currentTime − t` is 32310224000000 ms, far beyond `2^41−1`, where the
claim and the function's own documentation (source lines 82–86) require a
panic. -/
theorem c6_setStartTime_overflow :
    SetStartTime ⟨1700000000000000000⟩ ⟨-30610224000000000000⟩ =
      Except.ok ⟨-30610224000000000000⟩ ∧
    Int.tdiv (1700000000000000000 - -30610224000000000000) 1000000 >
      (MaxTimestamp : Int) ∧
    toMillis ⟨1700000000000000000⟩ - toMillis ⟨-30610224000000000000⟩ < 0 := by
  refine ⟨rfl, by decide, by decide⟩

/-- C8: the default resolver never returns an error; a call with the same time
unit as the stored one returns the successor of the stored counter, so two
consecutive calls with the same time unit return strictly increasing values;
a call with a time unit different from the stored one resets the counter and
returns 0 regardless of its prior value. -/
theorem c8_atomicResolver :
    (∀ st ms, ∃ n, (AtomicResolver st ms).2 = Except.ok n) ∧
    (∀ st ms st2 v, AtomicResolver st ms = (st2, Except.ok v) →
      (AtomicResolver st2 ms).2 = Except.ok (v + 1) ∧ v < v + 1) ∧
    (∀ st ms, ms ≠ st.lastTimeUnit →
      AtomicResolver st ms = ({ lastTimeUnit := ms, counter := 0 }, Except.ok 0)) := by
  refine ⟨?_, ?_, ?_⟩
  · intro st ms
    unfold AtomicResolver
    split_ifs
    · exact ⟨st.counter + 1, rfl⟩
    · exact ⟨0, rfl⟩
  · intro st ms st2 v h
    unfold AtomicResolver at h ⊢
    split_ifs at h with hsame
    · obtain ⟨hst, hv⟩ := Prod.mk.injEq .. ▸ h
      obtain rfl := Except.ok.inj hv
      subst hst
      rw [if_pos hsame]
      exact ⟨rfl, Nat.lt_succ_self _⟩
    · obtain ⟨hst, hv⟩ := Prod.mk.injEq .. ▸ h
      obtain rfl := Except.ok.inj hv
      subst hst
      rw [if_pos rfl]
      exact ⟨rfl, Nat.lt_succ_self _⟩
  · intro st ms hne
    unfold AtomicResolver
    rw [if_neg hne]

/-- Witness for C8: from state `(lastTimeUnit, counter) = (5, 7)`, a call with
time unit 5 returns 8, and a call with time unit 9 resets to 0. -/
theorem c8_atomicResolver_witness :
    (AtomicResolver ⟨5, 7⟩ 5).2 = Except.ok 8 ∧
    AtomicResolver ⟨5, 7⟩ 9 = ({ lastTimeUnit := 9, counter := 0 }, Except.ok 0) :=
  ⟨((c8_atomicResolver.2.1 ⟨5, 6⟩ 5 ⟨5, 7⟩ 7 rfl).1 : _),
    c8_atomicResolver.2.2 ⟨5, 7⟩ 9 (by decide)⟩

/-! ## Claims on the generator -/

/-- Concrete clock advancing one millisecond per sample, for witnesses. -/
def clockLin : Nat → Int := fun i => 5 + (i : Int)

/-- Concrete resolver whose first call reports an exhausted sequence, for
witnesses. -/
def resExhaust : Nat → Int → Except String Nat :=
  fun j _ => if j = 0 then Except.ok 63 else Except.ok 3

/-- Error string of a failing custom resolver, for witnesses. -/
def resolverBoom : String := "sequence service unavailable"

/-- C2: whenever `NextID` succeeds, the identifier it returns equals
`(elapsed << (M+S)) | (machineID << S) | seq` with `M = S = 6`, where
`elapsed = c − startMillis` for the finally used clock reading `c` and `seq`
is the value the resolver returned for `c`. -/
theorem c2_nextID_assembly :
    ∀ (clock : Nat → Int) (res : Nat → Int → Except String Nat)
      (startMillis : Int) (mid fuel wfuel id : Nat),
      NextID clock res startMillis mid fuel wfuel = some (Except.ok id) →
      ∃ j c seq, res j c = Except.ok seq ∧ seq < MaxSequence ∧
        0 ≤ c - startMillis ∧ c - startMillis ≤ (MaxTimestamp : Int) ∧
        id = encodeID (c - startMillis).toNat mid seq := by
  intro clock res startMillis mid fuel wfuel id h
  exact NextID_ok_decomposition clock res startMillis mid fuel wfuel id h

/-- Witness for C2: a constant clock at 5 and a resolver answering 3 produce
the identifier `(5 << 12) | (2 << 6) | 3 = 20611` for machine ID 2. -/
theorem c2_nextID_assembly_witness :
    ∃ (j : Nat) (c : Int) (seq : Nat),
      (Except.ok 3 : Except String Nat) = Except.ok seq ∧ seq < MaxSequence ∧
      0 ≤ c - 0 ∧ c - 0 ≤ (MaxTimestamp : Int) ∧
      20611 = encodeID (c - 0).toNat 2 seq :=
  c2_nextID_assembly (fun _ => 5) (fun _ _ => Except.ok 3) 0 2 1 1 20611 rfl

/-- C3: a completed `NextID` call either propagates a resolver error, or it
reached the epoch check with a resolver-produced pair `(c, seq)`,
`seq < MaxSequence`, and then fails exactly when `c − startMillis` is
negative or exceeds `MaxTimestamp`, returning an identifier with no error in
every other case. -/
theorem c3_nextID_error_iff :
    ∀ (clock : Nat → Int) (res : Nat → Int → Except String Nat)
      (startMillis : Int) (mid fuel wfuel : Nat) (r : Except String Nat),
      NextID clock res startMillis mid fuel wfuel = some r →
      (∃ e, r = Except.error e ∧ ∃ j c, res j c = Except.error e) ∨
      (∃ j c seq, res j c = Except.ok seq ∧ seq < MaxSequence ∧
        ((c - startMillis < 0 ∨ c - startMillis > (MaxTimestamp : Int)) ↔
          r = Except.error lifecycleErrMsg) ∧
        ((0 ≤ c - startMillis ∧ c - startMillis ≤ (MaxTimestamp : Int)) ↔
          ∃ id, r = Except.ok id)) := by
  intro clock res startMillis mid fuel wfuel r h
  rcases NextID_cases clock res startMillis mid fuel wfuel r h with
    he | ⟨j, c, seq, hres, hlt, rfl⟩
  · exact Or.inl he
  · refine Or.inr ⟨j, c, seq, hres, hlt, ?_, ?_⟩
    · constructor
      · intro hg
        exact (nextIDFinish_error startMillis mid c seq lifecycleErrMsg).2 ⟨hg, rfl⟩
      · intro herr
        exact ((nextIDFinish_error startMillis mid c seq lifecycleErrMsg).1 herr).1
    · constructor
      · intro ⟨h1, h2⟩
        exact ⟨encodeID (c - startMillis).toNat mid seq,
          (nextIDFinish_ok startMillis mid c seq _).2 ⟨h1, h2, rfl⟩⟩
      · intro ⟨id, hid⟩
        obtain ⟨h1, h2, _⟩ := (nextIDFinish_ok startMillis mid c seq id).1 hid
        exact ⟨h1, h2⟩

/-- Witness for C3: with a resolver that always fails, `NextID` completes and
the first disjunct holds. -/
theorem c3_nextID_error_iff_witness :
    (∃ e, (Except.error resolverBoom : Except String Nat) = Except.error e ∧
      ∃ (j : Nat) (c : Int),
        (Except.error resolverBoom : Except String Nat) = Except.error e) ∨
    (∃ (j : Nat) (c : Int) (seq : Nat),
      (Except.error resolverBoom : Except String Nat) = Except.ok seq ∧
      seq < MaxSequence ∧
      ((c - 0 < 0 ∨ c - 0 > (MaxTimestamp : Int)) ↔
        (Except.error resolverBoom : Except String Nat) =
          Except.error lifecycleErrMsg) ∧
      ((0 ≤ c - 0 ∧ c - 0 ≤ (MaxTimestamp : Int)) ↔
        ∃ id, (Except.error resolverBoom : Except String Nat) = Except.ok id)) :=
  c3_nextID_error_iff (fun _ => 5) (fun _ _ => Except.error resolverBoom) 0 2 1 1
    (Except.error resolverBoom) rfl

/-- C4: a successful `NextID` never carries a decoded sequence field reaching
`MaxSequence`; `waitForNextMillis` returns only a clock reading different
from the one it started from; and with a non-decreasing clock, if the first
resolution is already exhausted (`seq0 ≥ MaxSequence`), the identifier
finally produced has a strictly greater timestamp field than the exhausted
time unit's. -/
theorem c4_exhaustion :
    (∀ (clock : Nat → Int) (res : Nat → Int → Except String Nat)
      (startMillis : Int) (mid fuel wfuel id : Nat),
      mid ≤ MaxMachineID →
      NextID clock res startMillis mid fuel wfuel = some (Except.ok id) →
      (ParseID id).Sequence < MaxSequence) ∧
    (∀ (clock : Nat → Int) (last : Int) (wfuel i : Nat) (c2 : Int) (i2 : Nat),
      waitForNextMillis clock last wfuel i = some (c2, i2) →
      c2 ≠ last ∧ clock (i2 - 1) = c2) ∧
    (∀ (clock : Nat → Int) (res : Nat → Int → Except String Nat)
      (startMillis : Int) (mid fuel wfuel seq0 id : Nat),
      (∀ a b : Nat, a ≤ b → clock a ≤ clock b) →
      res 0 (clock 0) = Except.ok seq0 →
      MaxSequence ≤ seq0 →
      mid ≤ MaxMachineID →
      startMillis ≤ clock 0 →
      NextID clock res startMillis mid fuel wfuel = some (Except.ok id) →
      (clock 0 - startMillis).toNat < (ParseID id).Timestamp) := by
  refine ⟨?_, ?_, ?_⟩
  · intro clock res startMillis mid fuel wfuel id hmid h
    obtain ⟨j, c, seq, _, hlt, h1, h2, rfl⟩ :=
      NextID_ok_decomposition clock res startMillis mid fuel wfuel id h
    have hdf : (c - startMillis).toNat ≤ MaxTimestamp := by omega
    have hp := parse_encodeID (c - startMillis).toNat mid seq hdf hmid (by omega)
    rw [hp.1]
    exact hlt
  · intro clock last wfuel i c2 i2 h
    obtain ⟨h1, _, h3⟩ := waitForNextMillis_spec clock last wfuel i c2 i2 h
    exact ⟨h1, h3⟩
  · intro clock res startMillis mid fuel wfuel seq0 id hmono hres0 hex hmid hstart h
    unfold NextID at h
    rw [hres0] at h
    dsimp only at h
    cases hloop : nextIDLoop clock res wfuel fuel 1 1 (clock 0) seq0 with
    | none => rw [hloop] at h; exact absurd h (by simp)
    | some r2 =>
      rw [hloop] at h
      cases r2 with
      | error e => exact absurd h (by simp)
      | ok p =>
        obtain ⟨c, seq⟩ := p
        dsimp only at h
        have hfin := Option.some.inj h
        obtain ⟨h1, h2, rfl⟩ :=
          (nextIDFinish_ok startMillis mid c seq id).1 hfin
        have hmono2 := nextIDLoop_mono clock res wfuel hmono fuel 1 1 (clock 0)
          seq0 c seq ⟨0, by omega, rfl⟩ hloop
        have hcc : clock 0 < c := hmono2.2 hex
        have hseqlt : seq < MaxSequence := by
          rcases nextIDLoop_cases clock res wfuel fuel 1 1 (clock 0) seq0 _ hloop with
            ⟨e, heq, _⟩ | ⟨c3, seq3, heq, hlt3, _⟩
          · exact absurd heq (by simp)
          · obtain ⟨hc3, hs3⟩ := Prod.mk.injEq .. ▸ Except.ok.inj heq
            omega
        have hdf : (c - startMillis).toNat ≤ MaxTimestamp := by omega
        have hp := parse_encodeID (c - startMillis).toNat mid seq hdf hmid (by omega)
        rw [hp.2.2]
        omega

/-- Witness for C4: with `clockLin` and `resExhaust` (first resolution returns
63), the produced identifier is `(6 << 12) | (2 << 6) | 3 = 24707`, whose
sequence field is below 63 and whose timestamp field 6 exceeds the exhausted
unit's elapsed value 5. -/
theorem c4_exhaustion_witness :
    (ParseID 24707).Sequence < MaxSequence ∧
    ((6 : Int) ≠ 5 ∧ clockLin (2 - 1) = 6) ∧
    (clockLin 0 - 0).toNat < (ParseID 24707).Timestamp :=
  ⟨c4_exhaustion.1 clockLin resExhaust 0 2 2 2 24707 (by decide) rfl,
   c4_exhaustion.2.1 clockLin 5 2 1 6 2 rfl,
   c4_exhaustion.2.2 clockLin resExhaust 0 2 2 2 63 24707
     (fun a b hab => by unfold clockLin; omega)
     rfl (by decide) (by decide) (by decide) rfl⟩

/-- C5: a resolver error is returned by `NextID` unchanged and immediately,
both on the first resolution and on any re-resolution inside the exhaustion
loop. -/
theorem c5_resolver_error_propagation :
    (∀ (clock : Nat → Int) (res : Nat → Int → Except String Nat)
      (startMillis : Int) (mid fuel wfuel : Nat) (e : String),
      res 0 (clock 0) = Except.error e →
      NextID clock res startMillis mid fuel wfuel = some (Except.error e)) ∧
    (∀ (clock : Nat → Int) (res : Nat → Int → Except String Nat)
      (wfuel fuel i j : Nat) (c : Int) (seq : Nat) (c2 : Int) (i2 : Nat) (e : String),
      MaxSequence ≤ seq →
      waitForNextMillis clock c wfuel i = some (c2, i2) →
      res j c2 = Except.error e →
      nextIDLoop clock res wfuel (fuel + 1) i j c seq = some (Except.error e)) := by
  constructor
  · intro clock res startMillis mid fuel wfuel e h
    unfold NextID
    rw [h]
  · intro clock res wfuel fuel i j c seq c2 i2 e hseq hwait hres
    rw [nextIDLoop, if_pos hseq, hwait]
    dsimp only
    rw [hres]

/-- Witness for C5: a failing resolver's error surfaces from `NextID`, and
from the exhaustion loop after one wait. -/
theorem c5_resolver_error_propagation_witness :
    NextID (fun _ => 5) (fun _ _ => Except.error resolverBoom) 0 2 1 1 =
      some (Except.error resolverBoom) ∧
    nextIDLoop clockLin (fun _ _ => Except.error resolverBoom) 2 1 1 1 5 63 =
      some (Except.error resolverBoom) :=
  ⟨c5_resolver_error_propagation.1 (fun _ => 5)
      (fun _ _ => Except.error resolverBoom) 0 2 1 1 resolverBoom rfl,
   c5_resolver_error_propagation.2 clockLin
      (fun _ _ => Except.error resolverBoom) 2 0 1 1 5 63 6 2 resolverBoom
      (by decide) rfl rfl⟩

/-- C9: `ID` never signals an error: it returns exactly the identifier of a
successful `NextID`, the zero value 0 when `NextID` fails, and diverges
exactly when `NextID` does. -/
theorem c9_id_wrapper :
    ∀ (clock : Nat → Int) (res : Nat → Int → Except String Nat)
      (startMillis : Int) (mid fuel wfuel : Nat),
      (∀ id, NextID clock res startMillis mid fuel wfuel = some (Except.ok id) →
        ID clock res startMillis mid fuel wfuel = some id) ∧
      (∀ e, NextID clock res startMillis mid fuel wfuel = some (Except.error e) →
        ID clock res startMillis mid fuel wfuel = some 0) ∧
      (NextID clock res startMillis mid fuel wfuel = none →
        ID clock res startMillis mid fuel wfuel = none) := by
  intro clock res startMillis mid fuel wfuel
  refine ⟨?_, ?_, ?_⟩
  · intro id h
    unfold ID
    rw [h]
    rfl
  · intro e h
    unfold ID
    rw [h]
    rfl
  · intro h
    unfold ID
    rw [h]
    rfl

/-- Witness for C9: for the C2 witness scenario `ID` returns 20611, and for a
failing resolver it returns 0. -/
theorem c9_id_wrapper_witness :
    ID (fun _ => 5) (fun _ _ => Except.ok 3) 0 2 1 1 = some 20611 ∧
    ID (fun _ => 5) (fun _ _ => Except.error resolverBoom) 0 2 1 1 = some 0 :=
  ⟨(c9_id_wrapper (fun _ => 5) (fun _ _ => Except.ok 3) 0 2 1 1).1 20611 rfl,
   (c9_id_wrapper (fun _ => 5) (fun _ _ => Except.error resolverBoom) 0 2 1 1).2.1
     resolverBoom rfl⟩

end Snowflake
